import Mathlib

/-!
Shallow embedding of `src/server.js` (Express product API).

JavaScript numbers are carried as rationals (`ℚ`): exact wherever the
program only parses, stores and compares them; where the statistics
aggregator adds and divides numbers, IEEE-754 binary64 rounding is modelled
explicitly (`roundF64`, `fadd`, `fdiv`), since regrouped double sums can
differ.  `NaN` is modelled as `none` in `Option ℚ` where it can arise (from
`parseFloat` of a malformed string).  JavaScript strings are Lean `String`s
(code-point order stands in for UTF-16 code-unit order; the data involved is
ASCII).  A JSON body field is `Option Value` (`none` = property absent /
`undefined`).
-/

/-- A scalar JavaScript value as it can occur in a parsed JSON body or in a
product field accessed dynamically (`a[sortField]`). -/
inductive Value where
  | str (s : String)
  | num (q : ℚ)
  | bool (b : Bool)
  | undefined
deriving DecidableEq, Repr

/-- JavaScript truthiness of a possibly-absent body field
(`undefined`, `""`, `0`, `false` are falsy). -/
def truthy : Option Value → Bool
  | none => false
  | some (.str s) => !(s == "")
  | some (.num q) => !(q = 0)
  | some (.bool b) => b
  | some .undefined => false

/-- Truthiness of a possibly-absent query-parameter string
(only `undefined` and `""` are falsy). -/
def truthyStr : Option String → Bool
  | none => false
  | some s => !(s == "")

/-- Split a leading run of decimal digits off a character list. -/
def takeDigits : List Char → List Char × List Char
  | [] => ([], [])
  | c :: cs =>
    if c.isDigit then
      let (d, r) := takeDigits cs
      (c :: d, r)
    else ([], c :: cs)

/-- Numeric value of a digit string. -/
def digitsVal (ds : List Char) : ℕ :=
  ds.foldl (fun a c => a * 10 + (c.toNat - 48)) 0

/-- Consume an optional sign; `true` means negative. -/
def parseSign : List Char → Bool × List Char
  | '-' :: cs => (true, cs)
  | '+' :: cs => (false, cs)
  | cs => (false, cs)

/-- Model of JavaScript `parseFloat`: skip leading whitespace, optional sign,
then the longest `digits[.digits]` prefix; `none` models `NaN` (no digits at
all).  Exponents, hexadecimal and `Infinity` forms are not modelled; no query
value in scope uses them. -/
def jsParseFloat (s : String) : Option ℚ :=
  let cs := s.toList.dropWhile (·.isWhitespace)
  let (neg, cs1) := parseSign cs
  let (ip, cs2) := takeDigits cs1
  let fp := match cs2 with
    | '.' :: rest => (takeDigits rest).1
    | _ => []
  if ip.isEmpty && fp.isEmpty then none
  else
    let mag : ℚ := (digitsVal ip : ℚ) + (digitsVal fp : ℚ) / ((10 : ℚ) ^ fp.length)
    some (if neg then -mag else mag)

/-- Model of JavaScript `parseInt` (radix 10): skip leading whitespace,
optional sign, longest digit prefix; `none` models `NaN`.  The automatic
hexadecimal `0x` prefix is not modelled; no query value in scope uses it. -/
def jsParseInt (s : String) : Option ℤ :=
  let cs := s.toList.dropWhile (·.isWhitespace)
  let (neg, cs1) := parseSign cs
  let (ip, _) := takeDigits cs1
  if ip.isEmpty then none
  else some (if neg then -(digitsVal ip : ℤ) else (digitsVal ip : ℤ))

/-- Model of `parseInt(x) || d`: `NaN` and `0` are falsy and yield the default. -/
def intOr (s : Option String) (d : ℤ) : ℤ :=
  match s with
  | none => d
  | some str =>
    match jsParseInt str with
    | none => d
    | some n => if n = 0 then d else n

/-- JavaScript `Array.prototype.slice(start, end)` index normalisation:
negative indices count from the end, then both are clamped to `[0, length]`. -/
def jsSliceIndex (n : ℤ) (i : ℤ) : ℕ :=
  (if i < 0 then max (n + i) 0 else min i n).toNat

/-- JavaScript `Array.prototype.slice` on lists, with integer arguments. -/
def jsSlice {α : Type} (xs : List α) (s e : ℤ) : List α :=
  (xs.take (jsSliceIndex xs.length e)).drop (jsSliceIndex xs.length s)

/-- Comparison `x >= m` where `m` may be `NaN` (`none`): any comparison with `NaN` is
false. -/
def geNaN (x : ℚ) (m : Option ℚ) : Bool :=
  match m with
  | some q => decide (q ≤ x)
  | none => false

/-- Comparison `x <= m` where `m` may be `NaN`. -/
def leNaN (x : ℚ) (m : Option ℚ) : Bool :=
  match m with
  | some q => decide (x ≤ q)
  | none => false

/-- One product record of the in-memory `products` array. -/
structure Product where
  id : String
  name : String
  description : String
  price : ℚ
  category : String
  inStock : Bool
deriving DecidableEq, Repr

/-- Dynamic field access `p[sortField]`; an unknown field is `undefined`. -/
def getField (p : Product) : String → Value
  | "id" => .str p.id
  | "name" => .str p.name
  | "description" => .str p.description
  | "price" => .num p.price
  | "category" => .str p.category
  | "inStock" => .bool p.inStock
  | _ => .undefined

/-- The `ToNumber` coercion used by the abstract relational comparison for
non-string operands (`undefined` → `NaN`, booleans → 0/1).  String operands
only reach this in mixed-type comparisons, which cannot occur between records
sharing one schema; for them the `parseFloat`-style prefix parse stands in
for the full-string `Number` parse. -/
def Value.toNum : Value → Option ℚ
  | .num q => some q
  | .bool b => some (if b then 1 else 0)
  | .str s => jsParseFloat s
  | .undefined => none

/-- JavaScript `a < b` (abstract relational comparison): two strings compare
lexicographically, otherwise both sides coerce to numbers and any `NaN`
makes the comparison false. -/
def jsLt (a b : Value) : Bool :=
  match a, b with
  | .str x, .str y => decide (x < y)
  | a, b =>
    match a.toNum, b.toNum with
    | some x, some y => decide (x < y)
    | _, _ => false

/-- The sort comparator of the listing route:
`(a,b) => a[f] < b[f] ? -1*ord : a[f] > b[f] ? 1*ord : 0`
(JavaScript `x > y` is `y < x`). -/
def jsCompare (f : String) (ord : ℤ) (a b : Product) : ℤ :=
  if jsLt (getField a f) (getField b f) then -ord
  else if jsLt (getField b f) (getField a f) then ord
  else 0

/-- Stable insertion used to model the (stable) `Array.prototype.sort`:
an element settles after every earlier element that does not compare
strictly greater. -/
def insertCmp {α : Type} (cmp : α → α → ℤ) (x : α) : List α → List α
  | [] => [x]
  | y :: ys => if cmp y x ≤ 0 then y :: insertCmp cmp x ys else x :: y :: ys

/-- Stable sort by a JavaScript-style comparator (model of
`Array.prototype.sort`, which is stable). -/
def sortByCmp {α : Type} (cmp : α → α → ℤ) (xs : List α) : List α :=
  xs.foldl (fun acc x => insertCmp cmp x acc) []

/-- Case-insensitive-ready substring test on character lists
(`String.prototype.includes`). -/
def listIsPrefixOf : List Char → List Char → Bool
  | [], _ => true
  | _ :: _, [] => false
  | a :: as, b :: bs => a == b && listIsPrefixOf as bs

/-- Test that `needle` occurs as a contiguous run inside `hay`. -/
def listIsInfixOf (needle : List Char) : List Char → Bool
  | [] => listIsPrefixOf needle []
  | b :: bs => listIsPrefixOf needle (b :: bs) || listIsInfixOf needle bs

/-- JavaScript `hay.includes(needle)`. -/
def strIncludes (hay needle : String) : Bool :=
  listIsInfixOf needle.toList hay.toList

/-- Model of `String.prototype.trim`: strip leading and trailing whitespace
(structurally recursive so that concrete instances compute). -/
def jsTrim (s : String) : String :=
  String.mk (((s.toList.dropWhile (·.isWhitespace)).reverse.dropWhile
    (·.isWhitespace)).reverse)

/-- Model of `String.prototype.toLowerCase` (structurally recursive so that
concrete instances compute). -/
def jsToLower (s : String) : String :=
  String.mk (s.toList.map Char.toLower)

/-- The query parameters recognised by `GET /api/products`, each as the raw
string Express delivers (`none` = parameter absent). -/
structure Query where
  search : Option String := none
  category : Option String := none
  inStock : Option String := none
  minPrice : Option String := none
  maxPrice : Option String := none
  sortBy : Option String := none
  order : Option String := none
  page : Option String := none
  limit : Option String := none
deriving DecidableEq, Repr

/-- Stage 1: `search` keeps records whose name or description contains the
lower-cased term (skipped when the parameter is falsy). -/
def applySearch (q : Query) (ps : List Product) : List Product :=
  match q.search with
  | some s =>
    if s == "" then ps
    else
      let term := jsToLower s
      ps.filter (fun p =>
        strIncludes (jsToLower p.name) term || strIncludes (jsToLower p.description) term)
  | none => ps

/-- Stage 2a: case-insensitive category equality (skipped when falsy). -/
def applyCategory (q : Query) (ps : List Product) : List Product :=
  match q.category with
  | some c =>
    if c == "" then ps
    else ps.filter (fun p => jsToLower p.category == jsToLower c)
  | none => ps

/-- Stage 2b: `inStock` filter; the code tests `!== undefined`, so even an
empty string enters and is compared against `'true'`. -/
def applyInStock (q : Query) (ps : List Product) : List Product :=
  match q.inStock with
  | some s =>
    let v := s == "true"
    ps.filter (fun p => p.inStock == v)
  | none => ps

/-- Stage 3a: `minPrice` range filter; the parsed bound may be `NaN`. -/
def applyMinPrice (q : Query) (ps : List Product) : List Product :=
  match q.minPrice with
  | some s =>
    if s == "" then ps
    else ps.filter (fun p => geNaN p.price (jsParseFloat s))
  | none => ps

/-- Stage 3b: `maxPrice` range filter. -/
def applyMaxPrice (q : Query) (ps : List Product) : List Product :=
  match q.maxPrice with
  | some s =>
    if s == "" then ps
    else ps.filter (fun p => leNaN p.price (jsParseFloat s))
  | none => ps

/-- Stages 1-3 of the listing pipeline: search, exact-match filters, range
filters, in source order. -/
def filterStages (q : Query) (ps : List Product) : List Product :=
  applyMaxPrice q (applyMinPrice q (applyInStock q (applyCategory q (applySearch q ps))))

/-- Stage 4: sort when `sortBy` is truthy; `order === 'desc'` flips the
comparator sign. -/
def sortStage (q : Query) (ps : List Product) : List Product :=
  match q.sortBy with
  | some f =>
    if f == "" then ps
    else
      let ord : ℤ := if q.order == some "desc" then -1 else 1
      sortByCmp (jsCompare f ord) ps
  | none => ps

/-- The post-sort, pre-pagination sequence (`filteredProducts` right before
`paginate` runs). -/
def prePage (q : Query) (ps : List Product) : List Product :=
  sortStage q (filterStages q ps)

/-- The `paginate` helper: `array.slice((page-1)*limit, page*limit)`. -/
def paginate {α : Type} (xs : List α) (page limit : ℤ) : List α :=
  jsSlice xs ((page - 1) * limit) (page * limit)

/-- Extraction `parseInt(req.query.page) || 1`. -/
def pageVal (q : Query) : ℤ := intOr q.page 1

/-- Extraction `parseInt(req.query.limit) || 10`. -/
def limitVal (q : Query) : ℤ := intOr q.limit 10

/-- Computation `Math.ceil(totalProducts / limit)` over exact rationals; `limit` is never
`0` (zero parses falsy and yields the default `10`). -/
def totalPagesOf (total : ℕ) (limit : ℤ) : ℤ :=
  ⌈(total : ℚ) / (limit : ℚ)⌉

/-- The `pagination` object of the listing response. -/
structure Pagination where
  currentPage : ℤ
  totalPages : ℤ
  totalProducts : ℕ
  limit : ℤ
  hasNextPage : Bool
  hasPrevPage : Bool
deriving DecidableEq, Repr

/-- The listing response envelope. -/
structure ListResponse where
  success : Bool
  data : List Product
  pagination : Pagination
deriving DecidableEq, Repr

/-- The listing handler after `page`/`limit` extraction. -/
def listCore (ps : List Product) (q : Query) (page limit : ℤ) : ListResponse :=
  let fp := prePage q ps
  let totalProducts := fp.length
  let totalPages := totalPagesOf totalProducts limit
  { success := true
    data := paginate fp page limit
    pagination :=
      { currentPage := page
        totalPages := totalPages
        totalProducts := totalProducts
        limit := limit
        hasNextPage := decide (page < totalPages)
        hasPrevPage := decide (1 < page) } }

/-- Handler of `GET /api/products`. -/
def listProducts (ps : List Product) (q : Query) : ListResponse :=
  listCore ps q (pageVal q) (limitVal q)

/-- The seeded `products` array. -/
def sampleProducts : List Product :=
  [ ⟨"1", "Laptop", "High-performance laptop with 16GB RAM", 1200, "electronics", true⟩,
    ⟨"2", "Smartphone", "Latest model with 128GB storage", 800, "electronics", true⟩,
    ⟨"3", "Coffee Maker", "Programmable coffee maker with timer", 50, "kitchen", false⟩,
    ⟨"4", "Desk Chair", "Ergonomic office chair with lumbar support", 250, "furniture", true⟩,
    ⟨"5", "Headphones", "Noise-canceling wireless headphones", 150, "electronics", true⟩ ]

/-- Outcome of the `authenticate` middleware. -/
inductive AuthResult where
  | ok
  | err (message : String)
deriving DecidableEq, Repr

/-- The `authenticate` middleware: `apiKey` is `req.headers['x-api-key']`
(a header present with an empty value is the empty string, which is falsy);
`envKey` is `process.env.API_KEY` (`none` when the variable is unset). -/
def authenticate (apiKey : Option String) (envKey : Option String) : AuthResult :=
  if !truthyStr apiKey then .err "API key is required"
  else if apiKey ≠ envKey then .err "Invalid API key"
  else .ok

/-- A raw JSON request body for create/update; each property is absent or a
scalar.  The handlers never read `id` from the body, which the embedding makes
visible by carrying it. -/
structure RawBody where
  id : Option Value := none
  name : Option Value := none
  description : Option Value := none
  price : Option Value := none
  category : Option Value := none
  inStock : Option Value := none
deriving DecidableEq, Repr

def isStr : Option Value → Bool
  | some (.str _) => true
  | _ => false

def strVal : Option Value → String
  | some (.str s) => s
  | _ => ""

def isNum : Option Value → Bool
  | some (.num _) => true
  | _ => false

def numVal : Option Value → ℚ
  | some (.num q) => q
  | _ => 0

def isBool : Option Value → Bool
  | some (.bool _) => true
  | _ => false

/-- A present boolean's value, or the given fallback.  The non-boolean case
is unreachable in the handlers because validation has already rejected it. -/
def boolVal (v : Option Value) (d : Bool) : Bool :=
  match v with
  | some (.bool b) => b
  | _ => d

def nameMsg : String := "Name is required and must be a non-empty string"
def descriptionMsg : String := "Description is required and must be a string"
def priceMsg : String := "Price is required and must be a non-negative number"
def categoryMsg : String := "Category is required and must be a non-empty string"
def inStockMsg : String := "inStock must be a boolean value"

/-- The `validateProduct` middleware, transcribed check by check with the
mutable `errors` accumulator of the source. -/
def validateProduct (b : RawBody) : List String := Id.run do
  let mut errors : List String := []
  if !truthy b.name || !isStr b.name || (jsTrim (strVal b.name)).length = 0 then
    errors := errors ++ [nameMsg]
  if !truthy b.description || !isStr b.description then
    errors := errors ++ [descriptionMsg]
  if b.price = none || !isNum b.price || numVal b.price < 0 then
    errors := errors ++ [priceMsg]
  if !truthy b.category || !isStr b.category || (jsTrim (strVal b.category)).length = 0 then
    errors := errors ++ [categoryMsg]
  if b.inStock ≠ none && !isBool b.inStock then
    errors := errors ++ [inStockMsg]
  return errors

/-- The joined `ValidationError` message, `errors.join(', ')`. -/
def validationMessage (b : RawBody) : String :=
  String.intercalate ", " (validateProduct b)

/-- Fuel-driven floor of log2 on naturals: for `n ≥ 1` this is the largest
`k` with `2^k ≤ n` (fuel `n` suffices, the argument halves each step). -/
def natLog2Aux : ℕ → ℕ → ℕ
  | 0, _ => 0
  | fuel + 1, n => if n ≤ 1 then 0 else natLog2Aux fuel (n / 2) + 1

/-- Largest `k` with `2^k ≤ n` (for `n ≥ 1`). -/
def natLog2 (n : ℕ) : ℕ := natLog2Aux n n

/-- Fuel-driven ceiling of log2 on naturals. -/
def natClog2Aux : ℕ → ℕ → ℕ
  | 0, _ => 0
  | fuel + 1, n => if n ≤ 1 then 0 else natClog2Aux fuel ((n + 1) / 2) + 1

/-- Smallest `k` with `n ≤ 2^k` (for `n ≥ 1`). -/
def natClog2 (n : ℕ) : ℕ := natClog2Aux n n

/-- Floor of log2 of the positive fraction `n/d` (both positive): for
`n/d ≥ 1` take the floor log of the integer quotient; for `n/d < 1` the
negated ceiling log of `⌈d/n⌉`. -/
def intLog2Frac (n d : ℤ) : ℤ :=
  if d ≤ n then (natLog2 (n.ediv d).toNat : ℤ)
  else -(natClog2 (((d + n - 1).ediv n).toNat) : ℤ)

/-- Negation on `ℚ` built from the numerator (kept in normalised `mkRat`
form so concrete instances compute). -/
def ratNeg (q : ℚ) : ℚ := mkRat (-q.num) q.den

/-- The exact rational sum, built from numerators and denominators. -/
def ratAdd (x y : ℚ) : ℚ :=
  mkRat (x.num * (y.den : ℤ) + y.num * (x.den : ℤ)) (x.den * y.den)

/-- The exact rational quotient, built from numerators and denominators. -/
def ratDiv (x y : ℚ) : ℚ :=
  if y.num < 0 then mkRat (-(x.num * (y.den : ℤ))) (x.den * y.num.natAbs)
  else mkRat (x.num * (y.den : ℤ)) (x.den * y.num.natAbs)

/-- Round a non-negative rational to the nearest IEEE-754 binary64 value,
ties to the even significand: normalise `q = m·2^e` with
`2^52 ≤ m < 2^53`, then round `m` by comparing twice the remainder with the
scaled denominator.  Overflow and subnormals are not modelled; the price
magnitudes in scope lie in the normal range. -/
def roundPosF64 (q : ℚ) : ℚ :=
  if q.num ≤ 0 then 0
  else
    let n : ℤ := q.num
    let d : ℤ := (q.den : ℤ)
    let e : ℤ := intLog2Frac n d - 52
    let sn : ℤ := if 0 ≤ e then n else n * ((2 ^ (-e).toNat : ℕ) : ℤ)
    let sd : ℤ := if 0 ≤ e then d * ((2 ^ e.toNat : ℕ) : ℤ) else d
    let m : ℤ := sn.ediv sd
    let r : ℤ := sn - m * sd
    let m2 : ℤ :=
      if 2 * r < sd then m
      else if sd < 2 * r then m + 1
      else if m % 2 = 0 then m else m + 1
    if 0 ≤ e then ((m2 * ((2 ^ e.toNat : ℕ) : ℤ) : ℤ) : ℚ)
    else mkRat m2 (2 ^ (-e).toNat)

/-- Round a rational to the nearest binary64 value (sign-symmetric). -/
def roundF64 (q : ℚ) : ℚ :=
  if q.num < 0 then ratNeg (roundPosF64 (ratNeg q)) else roundPosF64 q

/-- JavaScript `x + y` on numbers: the exact sum, correctly rounded to
binary64 (IEEE-754 addition). -/
def fadd (x y : ℚ) : ℚ := roundF64 (ratAdd x y)

/-- JavaScript `x / y` on numbers: the exact quotient, correctly rounded to
binary64 (IEEE-754 division). -/
def fdiv (x y : ℚ) : ℚ := roundF64 (ratDiv x y)

/-- Per-category entry of the stats response. -/
structure CatStat where
  count : ℕ
  totalValue : ℚ
deriving DecidableEq, Repr

/-- One `forEach` step over `stats.byCategory`, preserving JavaScript object
insertion (first-seen) order. -/
def addCat (m : List (String × CatStat)) (c : String) (price : ℚ) : List (String × CatStat) :=
  match m with
  | [] => [(c, ⟨1, fadd 0 price⟩)]
  | (k, v) :: rest =>
    if k = c then (k, ⟨v.count + 1, fadd v.totalValue price⟩) :: rest
    else (k, v) :: addCat rest c price

/-- The `byCategory` object after the `forEach` loop. -/
def byCategoryOf (ps : List Product) : List (String × CatStat) :=
  ps.foldl (fun m p => addCat m p.category p.price) []

/-- The stats payload of `GET /api/products/stats`. -/
structure Stats where
  totalProducts : ℕ
  inStock : ℕ
  outOfStock : ℕ
  byCategory : List (String × CatStat)
  averagePrice : ℚ
  totalValue : ℚ
deriving DecidableEq, Repr

/-- The `GET /api/products/stats` handler. -/
def getStats (ps : List Product) : Stats :=
  let totalValue := ps.foldl (fun sum p => fadd sum p.price) 0
  { totalProducts := ps.length
    inStock := (ps.filter (fun p => p.inStock)).length
    outOfStock := (ps.filter (fun p => !p.inStock)).length
    byCategory := byCategoryOf ps
    averagePrice := if ps.length > 0 then fdiv totalValue (ps.length : ℚ) else 0
    totalValue := totalValue }

/-- A middleware stage, by name, as it appears in the route's chain. -/
inductive Stage where
  | logger
  | auth
  | validator
  | handler
deriving DecidableEq, Repr

/-- A typed failure of the error taxonomy (custom error classes). -/
structure ApiError where
  statusCode : ℕ
  message : String
deriving DecidableEq, Repr

/-- A request to a mutating route: the credential header and the parsed body. -/
structure MutRequest where
  apiKey : Option String
  body : RawBody
deriving DecidableEq, Repr

/-- A middleware stage either calls `next()` (`none`) or halts by passing an
error to `next(err)` (`some e`). -/
def StageFun : Type := MutRequest → Option ApiError

/-- Run a chain of named stages in order, recording which ran; the first halt
stops the walk, so no later stage executes. -/
def runStages (stages : List (Stage × StageFun)) (r : MutRequest) :
    List Stage × Option ApiError :=
  match stages with
  | [] => ([], none)
  | (lbl, f) :: rest =>
    match f r with
    | some e => ([lbl], some e)
    | none =>
      let (tr, res) := runStages rest r
      (lbl :: tr, res)

/-- The logger stage (`app.use(requestLogger)` runs before every route): its
only effect is console output and it always calls `next()`. -/
def loggerStage : StageFun := fun _ => none

/-- The `authenticate` stage as wired into a route chain. -/
def authStage (envKey : Option String) : StageFun := fun r =>
  match authenticate r.apiKey envKey with
  | .ok => none
  | .err m => some ⟨401, m⟩

/-- The `validateProduct` stage as wired into a route chain. -/
def validatorStage : StageFun := fun r =>
  let errs := validateProduct r.body
  if errs.isEmpty then none else some ⟨400, String.intercalate ", " errs⟩

/-- Middleware before the POST / PUT handlers: logger (global), then
`authenticate`, then `validateProduct`. -/
def createUpdateChain (envKey : Option String) : List (Stage × StageFun) :=
  [(.logger, loggerStage), (.auth, authStage envKey), (.validator, validatorStage)]

/-- Middleware before the DELETE handler: logger, then `authenticate`. -/
def deleteChain (envKey : Option String) : List (Stage × StageFun) :=
  [(.logger, loggerStage), (.auth, authStage envKey)]

/-- Response of a mutating route. -/
inductive Resp where
  | failure (statusCode : ℕ) (error : String)
  | success (statusCode : ℕ) (data : Product)
deriving DecidableEq, Repr

/-- What one mutating request did: which stages ran, the resulting store, and
the response. -/
structure MutOutcome where
  trace : List Stage
  products : List Product
  response : Resp
deriving DecidableEq, Repr

/-- The record built by the POST handler (`parseFloat` of a number that
passed validation is that number). -/
def createRecord (b : RawBody) (newId : String) : Product :=
  { id := newId
    name := jsTrim (strVal b.name)
    description := jsTrim (strVal b.description)
    price := numVal b.price
    category := jsToLower (jsTrim (strVal b.category))
    inStock := boolVal b.inStock true }

/-- The merge `{ ...products[productIndex], name: ..., inStock: inStock !== undefined ? inStock : ... }`:
the stored `id` survives the spread; the four required fields are overwritten;
`inStock` falls back to the stored value when absent. -/
def updateMerge (old : Product) (b : RawBody) : Product :=
  { old with
    name := jsTrim (strVal b.name)
    description := jsTrim (strVal b.description)
    price := numVal b.price
    category := jsToLower (jsTrim (strVal b.category))
    inStock := match b.inStock with
      | none => old.inStock
      | some v => boolVal (some v) old.inStock }

/-- Handler of `POST /api/products`: chain, then push a freshly-identified record
(`newId` stands for the generated `uuidv4()`). -/
def postProduct (envKey : Option String) (r : MutRequest) (products : List Product)
    (newId : String) : MutOutcome :=
  match runStages (createUpdateChain envKey) r with
  | (tr, some e) => ⟨tr, products, .failure e.statusCode e.message⟩
  | (tr, none) =>
    let np := createRecord r.body newId
    ⟨tr ++ [.handler], products ++ [np], .success 201 np⟩

/-- Handler of `PUT /api/products/:id`. -/
def putProduct (envKey : Option String) (r : MutRequest) (pid : String)
    (products : List Product) : MutOutcome :=
  match runStages (createUpdateChain envKey) r with
  | (tr, some e) => ⟨tr, products, .failure e.statusCode e.message⟩
  | (tr, none) =>
    match products.findIdx? (fun p => p.id == pid) with
    | none => ⟨tr ++ [.handler], products, .failure 404 ("Product with ID " ++ pid ++ " not found")⟩
    | some i =>
      match products[i]? with
      | none => ⟨tr ++ [.handler], products, .failure 404 ("Product with ID " ++ pid ++ " not found")⟩
      | some old =>
        let upd := updateMerge old r.body
        ⟨tr ++ [.handler], products.set i upd, .success 200 upd⟩

/-- Handler of `DELETE /api/products/:id`. -/
def deleteProduct (envKey : Option String) (apiKey : Option String) (pid : String)
    (products : List Product) : MutOutcome :=
  match runStages (deleteChain envKey) ⟨apiKey, {}⟩ with
  | (tr, some e) => ⟨tr, products, .failure e.statusCode e.message⟩
  | (tr, none) =>
    match products.findIdx? (fun p => p.id == pid) with
    | none => ⟨tr ++ [.handler], products, .failure 404 ("Product with ID " ++ pid ++ " not found")⟩
    | some i =>
      match products[i]? with
      | none => ⟨tr ++ [.handler], products, .failure 404 ("Product with ID " ++ pid ++ " not found")⟩
      | some victim =>
        ⟨tr ++ [.handler], products.eraseIdx i, .success 200 victim⟩

/-- Sum of the per-category counts of a stats mapping. -/
def catCountSum (m : List (String × CatStat)) : ℕ :=
  (m.map (fun kv => kv.2.count)).sum

/-- Sum of the per-category totals of a stats mapping. -/
def catValueSum (m : List (String × CatStat)) : ℚ :=
  (m.map (fun kv => kv.2.totalValue)).sum

/-! ## General lemmas about the embedded operations -/

theorem intOr_ne_zero (s : Option String) (d : ℤ) (hd : d ≠ 0) : intOr s d ≠ 0 := by
  rcases s with _ | str
  · simpa [intOr] using hd
  · rcases h : jsParseInt str with _ | n
    · simpa [intOr, h] using hd
    · by_cases hn : n = 0 <;> simp [intOr, h, hn, hd]

theorem limitVal_ne_zero (q : Query) : limitVal q ≠ 0 :=
  intOr_ne_zero q.limit 10 (by decide)

theorem jsSlice_nil {α : Type} (s e : ℤ) : jsSlice ([] : List α) s e = [] := by
  simp [jsSlice]

theorem sortByCmp_nil {α : Type} (cmp : α → α → ℤ) : sortByCmp cmp [] = [] := rfl

theorem sortStage_nil (q : Query) : sortStage q [] = [] := by
  unfold sortStage
  rcases q.sortBy with _ | f
  · rfl
  · by_cases h : f == "" <;> simp [h, sortByCmp]

theorem length_insertCmp {α : Type} (cmp : α → α → ℤ) (x : α) (l : List α) :
    (insertCmp cmp x l).length = l.length + 1 := by
  induction l with
  | nil => rfl
  | cons y ys ih =>
    unfold insertCmp
    by_cases h : cmp y x ≤ 0 <;> simp [h, ih]

theorem length_sortByCmp {α : Type} (cmp : α → α → ℤ) (xs : List α) :
    (sortByCmp cmp xs).length = xs.length := by
  suffices h : ∀ acc : List α, ((xs.foldl (fun acc x => insertCmp cmp x acc) acc).length
      = acc.length + xs.length) by
    simpa using h []
  induction xs with
  | nil => intro acc; simp
  | cons x xs ih =>
    intro acc
    simp only [List.foldl_cons]
    rw [ih (insertCmp cmp x acc), length_insertCmp]
    simp only [List.length_cons]
    omega

theorem length_sortStage (q : Query) (ps : List Product) :
    (sortStage q ps).length = ps.length := by
  unfold sortStage
  rcases q.sortBy with _ | f
  · rfl
  · by_cases h : f == "" <;> simp [h, length_sortByCmp]

theorem insertCmp_perm {α : Type} (cmp : α → α → ℤ) (x : α) (l : List α) :
    (insertCmp cmp x l).Perm (x :: l) := by
  induction l with
  | nil => exact List.Perm.refl _
  | cons y ys ih =>
    unfold insertCmp
    by_cases h : cmp y x ≤ 0
    · simp only [h, if_true]
      exact (ih.cons y).trans (List.Perm.swap x y ys)
    · simp [h]

theorem sortByCmp_perm {α : Type} (cmp : α → α → ℤ) (xs : List α) :
    (sortByCmp cmp xs).Perm xs := by
  suffices h : ∀ acc : List α, ((xs.foldl (fun acc x => insertCmp cmp x acc) acc).Perm
      (xs ++ acc)) by
    simpa using h []
  induction xs with
  | nil => intro acc; simp [List.Perm.refl]
  | cons x xs ih =>
    intro acc
    simp only [List.foldl_cons]
    refine (ih (insertCmp cmp x acc)).trans ?_
    have h1 : (xs ++ insertCmp cmp x acc).Perm (xs ++ (x :: acc)) :=
      List.Perm.append_left xs (insertCmp_perm cmp x acc)
    have h2 : (xs ++ (x :: acc)).Perm (x :: (xs ++ acc)) := List.perm_middle
    exact h1.trans h2

theorem sortStage_perm (q : Query) (ps : List Product) : (sortStage q ps).Perm ps := by
  unfold sortStage
  rcases q.sortBy with _ | f
  · exact List.Perm.refl _
  · by_cases h : f == ""
    · simp only [h, if_true]; exact List.Perm.refl _
    · simp only [h, if_false]; exact sortByCmp_perm _ ps

/-! ## C9 -/

/-- C9: on the empty collection the stats handler returns zero for every
count and aggregate — averagePrice is special-cased to 0 (no division), the
per-category mapping is empty, and no error is produced. -/
theorem c9_stats_empty_collection :
    getStats [] = { totalProducts := 0, inStock := 0, outOfStock := 0,
                    byCategory := [], averagePrice := 0, totalValue := 0 } := rfl

/-! ## Evaluation of the middleware chains -/

theorem runStages_createUpdate_auth_err (envKey : Option String) (r : MutRequest)
    (m : String) (h : authenticate r.apiKey envKey = .err m) :
    runStages (createUpdateChain envKey) r = ([.logger, .auth], some ⟨401, m⟩) := by
  simp [runStages, createUpdateChain, loggerStage, authStage, h]

theorem runStages_createUpdate_invalid (envKey : Option String) (r : MutRequest)
    (ha : authenticate r.apiKey envKey = .ok) (hv : validateProduct r.body ≠ []) :
    runStages (createUpdateChain envKey) r =
      ([.logger, .auth, .validator],
        some ⟨400, String.intercalate ", " (validateProduct r.body)⟩) := by
  simp [runStages, createUpdateChain, loggerStage, authStage, validatorStage, ha, hv]

theorem runStages_createUpdate_ok (envKey : Option String) (r : MutRequest)
    (ha : authenticate r.apiKey envKey = .ok) (hv : validateProduct r.body = []) :
    runStages (createUpdateChain envKey) r = ([.logger, .auth, .validator], none) := by
  simp [runStages, createUpdateChain, loggerStage, authStage, validatorStage, ha, hv]

theorem runStages_delete_auth_err (envKey : Option String) (r : MutRequest)
    (m : String) (h : authenticate r.apiKey envKey = .err m) :
    runStages (deleteChain envKey) r = ([.logger, .auth], some ⟨401, m⟩) := by
  simp [runStages, deleteChain, loggerStage, authStage, h]

theorem runStages_delete_ok (envKey : Option String) (r : MutRequest)
    (h : authenticate r.apiKey envKey = .ok) :
    runStages (deleteChain envKey) r = ([.logger, .auth], none) := by
  simp [runStages, deleteChain, loggerStage, authStage, h]

/-! ## C7 -/

/-- C7 counterexample: a request carrying the credential header with an empty
value is present-but-mismatched (the configured secret is "secret123"), yet
`authenticate` answers "API key is required", not "Invalid API key": the
code's `!apiKey` truthiness test classifies an empty header as missing. -/
theorem c7_counterexample :
    authenticate (some "") (some "secret123") = .err "API key is required" ∧
    AuthResult.err "API key is required" ≠ .err "Invalid API key" := by
  constructor
  · rfl
  · decide

/-- C7 (amended): for every mutating-route request, an absent credential
header — or one presented with the empty value, which the falsy check treats
the same way — fails with status 401 and exactly "API key is required"; a
present non-empty header different from the configured secret fails with
exactly "Invalid API key"; a present non-empty header equal to the secret is
allowed through, and on the POST route an `authenticate` failure is rendered
as the 401 failure envelope with the collection untouched. -/
theorem c7_authenticate_amended (apiKey envKey : Option String) :
    ((apiKey = none ∨ apiKey = some "") →
      authenticate apiKey envKey = .err "API key is required") ∧
    (∀ k, apiKey = some k → k ≠ "" → envKey ≠ some k →
      authenticate apiKey envKey = .err "Invalid API key") ∧
    (∀ k, apiKey = some k → k ≠ "" → envKey = some k →
      authenticate apiKey envKey = .ok) ∧
    (∀ (r : MutRequest) (ps : List Product) (newId : String) (m : String),
      authenticate r.apiKey envKey = .err m →
      (postProduct envKey r ps newId).response = .failure 401 m ∧
      (postProduct envKey r ps newId).products = ps) := by
  refine ⟨?_, ?_, ?_, ?_⟩
  · rintro (rfl | rfl) <;> rfl
  · rintro k rfl hk hne
    simp [authenticate, truthyStr, hk, Ne.symm]
    intro h
    exact absurd h.symm hne
  · rintro k rfl hk rfl
    simp [authenticate, truthyStr, hk]
  · intro r ps newId m hm
    unfold postProduct
    rw [runStages_createUpdate_auth_err envKey r m hm]
    exact ⟨rfl, rfl⟩

/-- C7 witness: the three branches at concrete inputs. -/
theorem c7_witness :
    authenticate none (some "s3cr3t") = .err "API key is required" ∧
    authenticate (some "wrong") (some "s3cr3t") = .err "Invalid API key" ∧
    authenticate (some "s3cr3t") (some "s3cr3t") = .ok ∧
    (postProduct (some "s3cr3t") ⟨none, {}⟩ sampleProducts "new-id").response
      = .failure 401 "API key is required" ∧
    (postProduct (some "s3cr3t") ⟨none, {}⟩ sampleProducts "new-id").products
      = sampleProducts := by
  refine ⟨(c7_authenticate_amended none (some "s3cr3t")).1 (Or.inl rfl),
    (c7_authenticate_amended (some "wrong") (some "s3cr3t")).2.1 "wrong" rfl
      (by decide) (by decide),
    (c7_authenticate_amended (some "s3cr3t") (some "s3cr3t")).2.2.1 "s3cr3t" rfl
      (by decide) rfl,
    ((c7_authenticate_amended none (some "s3cr3t")).2.2.2 ⟨none, {}⟩ sampleProducts
      "new-id" "API key is required" rfl).1,
    ((c7_authenticate_amended none (some "s3cr3t")).2.2.2 ⟨none, {}⟩ sampleProducts
      "new-id" "API key is required" rfl).2⟩

/-! ## C6 -/

/-- C6: `validateProduct` accumulates one message per violated field, in the
source's fixed field order name, description, price, category, inStock — the
outcome is the concatenation of the five independent per-field checks, so
every violated field is reported, not just the first.  On the claim's input
`{name:"", price:-1}` the error list contains both the name violation and the
price violation (together with the description and category violations, those
fields being absent), and the joined `ValidationError` message lists them in
specification order. -/
theorem c6_validator_reports_all_violations :
    (∀ b : RawBody,
      validateProduct b =
        (if !truthy b.name || !isStr b.name || (jsTrim (strVal b.name)).length = 0
          then [nameMsg] else []) ++
        (if !truthy b.description || !isStr b.description then [descriptionMsg] else []) ++
        (if b.price = none || !isNum b.price || numVal b.price < 0 then [priceMsg] else []) ++
        (if !truthy b.category || !isStr b.category || (jsTrim (strVal b.category)).length = 0
          then [categoryMsg] else []) ++
        (if b.inStock ≠ none && !isBool b.inStock then [inStockMsg] else [])) ∧
    validateProduct { name := some (.str ""), price := some (.num (-1)) }
      = [nameMsg, descriptionMsg, priceMsg, categoryMsg] ∧
    nameMsg ∈ validateProduct { name := some (.str ""), price := some (.num (-1)) } ∧
    priceMsg ∈ validateProduct { name := some (.str ""), price := some (.num (-1)) } ∧
    validationMessage { name := some (.str ""), price := some (.num (-1)) }
      = "Name is required and must be a non-empty string, Description is required and must be a string, Price is required and must be a non-negative number, Category is required and must be a non-empty string" := by
  refine ⟨?_, by decide, by decide, by decide, by decide⟩
  intro b
  simp only [validateProduct, Id.run]
  split_ifs <;> simp

/-! ## C1 -/

/-- C1 counterexample: with stored record `{id:"1", price:100, inStock:true}`
and the partial update body `{price:120}` (valid API key), the PUT handler
does not apply a partial merge — `validateProduct` rejects the body because
name, description and category are absent, the response is the 400 failure
envelope, and the stored price remains 100. -/
theorem c1_counterexample :
    (putProduct (some "k") ⟨some "k", { price := some (.num 120) }⟩ "1"
        [⟨"1", "X", "d", 100, "c", true⟩]).response
      = .failure 400 "Name is required and must be a non-empty string, Description is required and must be a string, Category is required and must be a non-empty string" ∧
    (putProduct (some "k") ⟨some "k", { price := some (.num 120) }⟩ "1"
        [⟨"1", "X", "d", 100, "c", true⟩]).products
      = [⟨"1", "X", "d", 100, "c", true⟩] := by
  constructor <;> decide

/-- C1 (amended): the update operation is full-replace for the four required
fields — a body omitting any of name, description, price or category fails
validation with a 400 response and leaves the collection unchanged; when the
body passes validation, the stored record is replaced by the merge that
overwrites those four fields (trimmed, category lower-cased), keeps the
stored value for an omitted `inStock`, takes a present boolean `inStock`
from the body, and never takes `id` from the input: the merged record keeps
the stored `id`, and a created record's `id` is the generated identifier
regardless of any `id` in the body. -/
theorem c1_update_semantics_amended
    (envKey : Option String) (r : MutRequest) (pid : String) (ps : List Product) :
    (authenticate r.apiKey envKey = .ok → validateProduct r.body ≠ [] →
      (putProduct envKey r pid ps).products = ps ∧
      (putProduct envKey r pid ps).response = .failure 400 (validationMessage r.body)) ∧
    (∀ i old, authenticate r.apiKey envKey = .ok → validateProduct r.body = [] →
      ps.findIdx? (fun p => p.id == pid) = some i → ps[i]? = some old →
      (putProduct envKey r pid ps).products = ps.set i (updateMerge old r.body) ∧
      (putProduct envKey r pid ps).response = .success 200 (updateMerge old r.body) ∧
      (updateMerge old r.body).id = old.id ∧
      (r.body.inStock = none → (updateMerge old r.body).inStock = old.inStock) ∧
      (∀ v : Bool, r.body.inStock = some (.bool v) → (updateMerge old r.body).inStock = v) ∧
      (updateMerge old r.body).name = jsTrim (strVal r.body.name) ∧
      (updateMerge old r.body).price = numVal r.body.price ∧
      (updateMerge old r.body).category = jsToLower (jsTrim (strVal r.body.category))) ∧
    (∀ (b : RawBody) (newId : String), (createRecord b newId).id = newId) := by
  refine ⟨?_, ?_, fun b newId => rfl⟩
  · intro ha hv
    unfold putProduct
    rw [runStages_createUpdate_invalid envKey r ha hv]
    exact ⟨rfl, rfl⟩
  · intro i old ha hv hidx hget
    unfold putProduct
    rw [runStages_createUpdate_ok envKey r ha hv]
    simp only [hidx, hget]
    refine ⟨by trivial, by trivial, by trivial, ?_, ?_, by trivial, by trivial, by trivial⟩
    · intro h; simp [updateMerge, h]
    · intro v h; simp [updateMerge, boolVal, h]

/-- C1 witness: the amended semantics at a concrete store and body — stored
`{price:100, inStock:true}`, full body carrying `price:120` and no `inStock`:
the update succeeds, price becomes 120, `inStock` stays `true`, `id` stays
`"1"`. -/
theorem c1_witness :
    (putProduct (some "k")
        ⟨some "k", { name := some (.str "X"), description := some (.str "d"),
                     price := some (.num 120), category := some (.str "c") }⟩ "1"
        [⟨"1", "X", "d", 100, "c", true⟩]).products
      = [⟨"1", "X", "d", 120, "c", true⟩] ∧
    (updateMerge ⟨"1", "X", "d", 100, "c", true⟩
        { name := some (.str "X"), description := some (.str "d"),
          price := some (.num 120), category := some (.str "c") }).inStock = true ∧
    (updateMerge ⟨"1", "X", "d", 100, "c", true⟩
        { name := some (.str "X"), description := some (.str "d"),
          price := some (.num 120), category := some (.str "c") }).id = "1" := by
  have h := (c1_update_semantics_amended (some "k")
    ⟨some "k", { name := some (.str "X"), description := some (.str "d"),
                 price := some (.num 120), category := some (.str "c") }⟩ "1"
    [⟨"1", "X", "d", 100, "c", true⟩]).2.1 0 ⟨"1", "X", "d", 100, "c", true⟩
    rfl (by decide) (by decide) rfl
  refine ⟨?_, ?_, h.2.2.1⟩
  · rw [h.1]; decide
  · rw [h.2.2.2.1 rfl]

/-! ## C8 -/

/-- C8: the stages of every mutating route run in the fixed order logger,
authenticate, (validateProduct on create/update), handler, and the first halt
stops the chain: with a missing or wrong API key the recorded trace of both
POST and PUT stops at the authenticator — the validator and the handler never
run and the stored collection is unchanged; with a valid key but an invalid
body the trace stops at the validator and the collection is unchanged; only
when both pass does the handler run.  DELETE has no validator stage. -/
theorem c8_middleware_order_and_short_circuit
    (envKey : Option String) (r : MutRequest) (ps : List Product)
    (newId pid : String) :
    (∀ m, authenticate r.apiKey envKey = .err m →
      (postProduct envKey r ps newId).trace = [.logger, .auth] ∧
      (postProduct envKey r ps newId).products = ps ∧
      (putProduct envKey r pid ps).trace = [.logger, .auth] ∧
      (putProduct envKey r pid ps).products = ps ∧
      (deleteProduct envKey r.apiKey pid ps).trace = [.logger, .auth] ∧
      (deleteProduct envKey r.apiKey pid ps).products = ps) ∧
    (authenticate r.apiKey envKey = .ok → validateProduct r.body ≠ [] →
      (postProduct envKey r ps newId).trace = [.logger, .auth, .validator] ∧
      (postProduct envKey r ps newId).products = ps ∧
      (putProduct envKey r pid ps).trace = [.logger, .auth, .validator] ∧
      (putProduct envKey r pid ps).products = ps) ∧
    (authenticate r.apiKey envKey = .ok → validateProduct r.body = [] →
      (postProduct envKey r ps newId).trace = [.logger, .auth, .validator, .handler] ∧
      (putProduct envKey r pid ps).trace = [.logger, .auth, .validator, .handler]) ∧
    (authenticate r.apiKey envKey = .ok →
      (deleteProduct envKey r.apiKey pid ps).trace = [.logger, .auth, .handler]) := by
  refine ⟨?_, ?_, ?_, ?_⟩
  · intro m hm
    have hm' : authenticate (MutRequest.mk r.apiKey {}).apiKey envKey = .err m := hm
    unfold postProduct putProduct deleteProduct
    rw [runStages_createUpdate_auth_err envKey r m hm,
        runStages_delete_auth_err envKey ⟨r.apiKey, {}⟩ m hm']
    exact ⟨rfl, rfl, rfl, rfl, rfl, rfl⟩
  · intro ha hv
    unfold postProduct putProduct
    rw [runStages_createUpdate_invalid envKey r ha hv]
    exact ⟨rfl, rfl, rfl, rfl⟩
  · intro ha hv
    unfold postProduct putProduct
    rw [runStages_createUpdate_ok envKey r ha hv]
    refine ⟨by trivial, ?_⟩
    rcases h : ps.findIdx? (fun p => p.id == pid) with _ | i
    · simp [h]
    · rcases hg : ps[i]? with _ | old <;> simp [h, hg]
  · intro ha
    have ha' : authenticate (MutRequest.mk r.apiKey {}).apiKey envKey = .ok := ha
    unfold deleteProduct
    rw [runStages_delete_ok envKey ⟨r.apiKey, {}⟩ ha']
    rcases h : ps.findIdx? (fun p => p.id == pid) with _ | i
    · simp [h]
    · rcases hg : ps[i]? with _ | victim <;> simp [h, hg]

/-- C8 witness: a POST and a PUT with a missing API key and an invalid body
halt at the authenticator with the seeded collection unchanged, so the
validator verdict is never consulted. -/
theorem c8_witness :
    (postProduct (some "k") ⟨none, {}⟩ sampleProducts "new-id").trace
      = [.logger, .auth] ∧
    (postProduct (some "k") ⟨none, {}⟩ sampleProducts "new-id").products
      = sampleProducts ∧
    (putProduct (some "k") ⟨none, {}⟩ "1" sampleProducts).trace
      = [.logger, .auth] ∧
    (putProduct (some "k") ⟨none, {}⟩ "1" sampleProducts).products
      = sampleProducts ∧
    (deleteProduct (some "k") none "1" sampleProducts).trace = [.logger, .auth] ∧
    (deleteProduct (some "k") none "1" sampleProducts).products = sampleProducts := by
  exact (c8_middleware_order_and_short_circuit (some "k") ⟨none, {}⟩ sampleProducts
    "new-id" "1").1 "API key is required" rfl

/-! ## C2 -/

theorem applyMaxPrice_nil (q : Query) : applyMaxPrice q [] = [] := by
  unfold applyMaxPrice
  rcases q.maxPrice with _ | s
  · rfl
  · by_cases h : s == "" <;> simp [h]

/-- C2 counterexample: on the seeded collection, the query `minPrice=abc`
does not behave like the query without `minPrice`: the malformed bound parses
to `NaN`, every `price >= NaN` comparison is false, and the listing returns
an empty slice with `totalProducts = 0`, while the same query without the
parameter returns all five records. -/
theorem c2_counterexample :
    (listProducts sampleProducts { minPrice := some "abc" }).data = [] ∧
    (listProducts sampleProducts { minPrice := some "abc" }).pagination.totalProducts = 0 ∧
    (listProducts sampleProducts {}).data = sampleProducts ∧
    (listProducts sampleProducts {}).pagination.totalProducts = 5 := by
  refine ⟨by decide, by decide, by decide, by decide⟩

/-- C2 (amended): a present, non-empty `minPrice` or `maxPrice` without a
numeric prefix (`parseFloat` yields `NaN`) never fails the request — the
response is still the success envelope — but the range filter is not skipped:
comparison with `NaN` rejects every record, so the returned slice is empty
and `totalProducts` is 0, which differs from the same query with the
parameter removed whenever that query matches anything. -/
theorem c2_malformed_bound_amended (ps : List Product) (q : Query) :
    (∀ s, q.minPrice = some s → s ≠ "" → jsParseFloat s = none →
      (listProducts ps q).data = [] ∧
      (listProducts ps q).pagination.totalProducts = 0 ∧
      (listProducts ps q).success = true) ∧
    (∀ s, q.maxPrice = some s → s ≠ "" → jsParseFloat s = none →
      (listProducts ps q).data = [] ∧
      (listProducts ps q).pagination.totalProducts = 0 ∧
      (listProducts ps q).success = true) := by
  constructor
  · intro s hmin hs hparse
    have hsb : (s == "") = false := by simp [hs]
    have hfil : filterStages q ps = [] := by
      unfold filterStages
      rw [show applyMinPrice q (applyInStock q (applyCategory q (applySearch q ps))) = []
        from by simp [applyMinPrice, hmin, hsb, hparse, geNaN]]
      exact applyMaxPrice_nil q
    have hpre : prePage q ps = [] := by
      unfold prePage; rw [hfil]; exact sortStage_nil q
    refine ⟨?_, ?_, rfl⟩
    · show paginate (prePage q ps) _ _ = []
      rw [hpre]; exact jsSlice_nil _ _
    · show (prePage q ps).length = 0
      rw [hpre]; rfl
  · intro s hmax hs hparse
    have hsb : (s == "") = false := by simp [hs]
    have hfil : filterStages q ps = [] := by
      unfold filterStages
      simp [applyMaxPrice, hmax, hsb, hparse, leNaN]
    have hpre : prePage q ps = [] := by
      unfold prePage; rw [hfil]; exact sortStage_nil q
    refine ⟨?_, ?_, rfl⟩
    · show paginate (prePage q ps) _ _ = []
      rw [hpre]; exact jsSlice_nil _ _
    · show (prePage q ps).length = 0
      rw [hpre]; rfl

/-- C2 witness: the amended behaviour at `minPrice="abc"` and at
`maxPrice="xyz"` on the seeded collection. -/
theorem c2_witness :
    (listProducts sampleProducts { minPrice := some "abc" }).data = [] ∧
    (listProducts sampleProducts { minPrice := some "abc" }).success = true ∧
    (listProducts sampleProducts { maxPrice := some "xyz" }).data = [] ∧
    (listProducts sampleProducts { maxPrice := some "xyz" }).pagination.totalProducts = 0 := by
  refine ⟨((c2_malformed_bound_amended sampleProducts { minPrice := some "abc" }).1
      "abc" rfl (by decide) (by decide)).1,
    ((c2_malformed_bound_amended sampleProducts { minPrice := some "abc" }).1
      "abc" rfl (by decide) (by decide)).2.2,
    ((c2_malformed_bound_amended sampleProducts { maxPrice := some "xyz" }).2
      "xyz" rfl (by decide) (by decide)).1,
    ((c2_malformed_bound_amended sampleProducts { maxPrice := some "xyz" }).2
      "xyz" rfl (by decide) (by decide)).2.1⟩

/-! ## C4 -/

/-- C4 counterexample: with `limit=-3` the parsed page size is -3, which is
not positive, yet `totalPages` is `Math.ceil(5 / -3) = -1`, not the claimed
0. -/
theorem c4_counterexample :
    (listProducts sampleProducts { limit := some "-3" }).pagination.limit = -3 ∧
    ¬ (0 < (-3 : ℤ)) ∧
    (listProducts sampleProducts { limit := some "-3" }).pagination.totalPages = -1 ∧
    (-1 : ℤ) ≠ 0 := by
  refine ⟨by decide, by decide, ?_, by decide⟩
  show totalPagesOf (prePage { limit := some "-3" } sampleProducts).length
    (limitVal { limit := some "-3" }) = -1
  rw [show (prePage { limit := some "-3" } sampleProducts).length = 5 from by decide,
      show limitVal { limit := some "-3" } = -3 from by decide]
  unfold totalPagesOf
  rw [show ((5 : ℕ) : ℚ) / ((-3 : ℤ) : ℚ) = -(5 / 3 : ℚ) from by norm_num, Int.ceil_eq_iff]
  norm_num

/-- C4 (amended): for every snapshot and query the page size is never 0 (a
zero or unparsable `limit` falls back to 10), and with no special case
`totalPages = ⌈totalMatching / pageSize⌉` as an exact rational ceiling — for
a negative parsed `limit` this can be negative, not 0; `hasNextPage` is
`currentPage < totalPages`, `hasPrevPage` is `currentPage > 1`, and
`totalMatching` is the record count after the search, exact-match and range
stages (pre-pagination; sorting preserves length). -/
theorem c4_page_metadata_amended (ps : List Product) (q : Query) :
    limitVal q ≠ 0 ∧
    (listProducts ps q).pagination.totalPages
      = ⌈(((listProducts ps q).pagination.totalProducts : ℚ) / (limitVal q : ℚ))⌉ ∧
    (listProducts ps q).pagination.hasNextPage
      = decide ((listProducts ps q).pagination.currentPage
          < (listProducts ps q).pagination.totalPages) ∧
    (listProducts ps q).pagination.hasPrevPage
      = decide (1 < (listProducts ps q).pagination.currentPage) ∧
    (listProducts ps q).pagination.totalProducts = (filterStages q ps).length ∧
    (listProducts ps q).pagination.limit = limitVal q ∧
    (listProducts ps q).pagination.currentPage = pageVal q := by
  refine ⟨limitVal_ne_zero q, rfl, rfl, rfl, ?_, rfl, rfl⟩
  exact length_sortStage q (filterStages q ps)

/-! ## C3 -/

theorem jsSlice_of_nonneg {α : Type} (xs : List α) (s e : ℤ) (hs : 0 ≤ s) (he : 0 ≤ e) :
    jsSlice xs s e = (xs.drop s.toNat).take (e.toNat - s.toNat) := by
  unfold jsSlice jsSliceIndex
  rw [if_neg (show ¬ s < 0 by omega), if_neg (show ¬ e < 0 by omega), List.drop_take]
  rcases le_total s (xs.length : ℤ) with hsn | hsn
  · rw [min_eq_left hsn]
    rcases le_total e (xs.length : ℤ) with hen | hen
    · rw [min_eq_left hen]
    · rw [min_eq_right hen]
      have hlen : (xs.drop s.toNat).length = xs.length - s.toNat := List.length_drop _ _
      rw [List.take_of_length_le (by rw [hlen]; omega),
          List.take_of_length_le (by rw [hlen]; omega)]
  · rw [min_eq_right hsn]
    rw [List.drop_eq_nil_of_le (show xs.length ≤ ((xs.length : ℤ)).toNat by omega),
        List.drop_eq_nil_of_le (show xs.length ≤ s.toNat by omega)]
    simp

/-- C3 counterexample: two violations on the seeded collection.  First,
`page=-2` is non-positive but is not coerced to 1 (`-2` is truthy): with
`limit=1` the response's `currentPage` is -2 and the slice is the third
record (JavaScript negative-index slice), not the first record that
`page=1` returns.  Second, with `limit=-3` we get `totalPages = -1` and
`currentPage = 1 > totalPages`, yet the returned slice is not empty. -/
theorem c3_counterexample :
    (listProducts sampleProducts { page := some "-2", limit := some "1" }).pagination.currentPage
      = -2 ∧
    ((-2 : ℤ) ≤ 0) ∧
    (listProducts sampleProducts { page := some "-2", limit := some "1" }).data
      = [⟨"3", "Coffee Maker", "Programmable coffee maker with timer", 50, "kitchen", false⟩] ∧
    (listProducts sampleProducts { page := some "1", limit := some "1" }).data
      = [⟨"1", "Laptop", "High-performance laptop with 16GB RAM", 1200, "electronics", true⟩] ∧
    (listProducts sampleProducts { limit := some "-3" }).pagination.currentPage = 1 ∧
    (listProducts sampleProducts { limit := some "-3" }).pagination.totalPages = -1 ∧
    (listProducts sampleProducts { limit := some "-3" }).data ≠ [] := by
  refine ⟨by decide, by decide, by decide, by decide, by decide, ?_, by decide⟩
  show totalPagesOf (prePage { limit := some "-3" } sampleProducts).length
    (limitVal { limit := some "-3" }) = -1
  rw [show (prePage { limit := some "-3" } sampleProducts).length = 5 from by decide,
      show limitVal { limit := some "-3" } = -3 from by decide]
  unfold totalPagesOf
  rw [show ((5 : ℕ) : ℚ) / ((-3 : ℤ) : ℚ) = -(5 / 3 : ℚ) from by norm_num, Int.ceil_eq_iff]
  norm_num

/-- C3 (amended): `page` defaults to 1 and falls back to 1 when the
parameter is non-numeric or parses to 0, but a negative parsed value is kept
as-is (only falsy values are replaced); `limit` defaults to 10; whenever the
effective page and limit are at least 1, the returned slice is exactly the
half-open range `[(page-1)*limit, page*limit)` of the post-sort sequence,
clamped to its length; and when the effective limit is at least 1, every
page greater than `totalPages` yields an empty slice (not an error) with
`hasNextPage = false`. -/
theorem c3_pagination_amended (ps : List Product) (q : Query) :
    (q.page = none → pageVal q = 1) ∧
    (∀ s, q.page = some s → jsParseInt s = none → pageVal q = 1) ∧
    (∀ s, q.page = some s → jsParseInt s = some 0 → pageVal q = 1) ∧
    (q.limit = none → limitVal q = 10) ∧
    (1 ≤ pageVal q → 1 ≤ limitVal q →
      (listProducts ps q).data
        = ((prePage q ps).drop (((pageVal q - 1) * limitVal q).toNat)).take
            ((limitVal q).toNat)) ∧
    (1 ≤ limitVal q → (listProducts ps q).pagination.totalPages < pageVal q →
      (listProducts ps q).data = [] ∧
      (listProducts ps q).pagination.hasNextPage = false) := by
  refine ⟨?_, ?_, ?_, ?_, ?_, ?_⟩
  · intro h; simp [pageVal, intOr, h]
  · intro s h hp; simp [pageVal, intOr, h, hp]
  · intro s h hp; simp [pageVal, intOr, h, hp]
  · intro h; simp [limitVal, intOr, h]
  · intro hp hl
    show paginate (prePage q ps) (pageVal q) (limitVal q) = _
    unfold paginate
    have hs0 : 0 ≤ (pageVal q - 1) * limitVal q := mul_nonneg (by omega) (by omega)
    have he0 : 0 ≤ pageVal q * limitVal q := mul_nonneg (by omega) (by omega)
    have hsum : pageVal q * limitVal q = (pageVal q - 1) * limitVal q + limitVal q := by ring
    rw [jsSlice_of_nonneg _ _ _ hs0 he0]
    congr 1
    omega
  · intro hl htp
    have htp' : totalPagesOf (prePage q ps).length (limitVal q) < pageVal q := htp
    have htp0 : (0 : ℤ) ≤ totalPagesOf (prePage q ps).length (limitVal q) := by
      unfold totalPagesOf
      refine Int.ceil_nonneg (div_nonneg (by positivity) ?_)
      exact_mod_cast (by omega : (0 : ℤ) ≤ limitVal q)
    have hp1 : 1 ≤ pageVal q := by omega
    have hkey : (((prePage q ps).length : ℤ)) ≤ (pageVal q - 1) * limitVal q := by
      have hlq : (0 : ℚ) < ((limitVal q : ℤ) : ℚ) := by
        exact_mod_cast (by omega : (0 : ℤ) < limitVal q)
      have hceil : (((prePage q ps).length : ℚ)) / ((limitVal q : ℤ) : ℚ)
          ≤ ((totalPagesOf (prePage q ps).length (limitVal q) : ℤ) : ℚ) := by
        unfold totalPagesOf
        exact Int.le_ceil _
      have h1 : (((prePage q ps).length : ℚ))
          ≤ ((totalPagesOf (prePage q ps).length (limitVal q) : ℤ) : ℚ)
            * ((limitVal q : ℤ) : ℚ) := (div_le_iff₀ hlq).mp hceil
      have h2 : ((totalPagesOf (prePage q ps).length (limitVal q) : ℤ) : ℚ)
            * ((limitVal q : ℤ) : ℚ)
          ≤ (((pageVal q - 1 : ℤ) : ℚ)) * ((limitVal q : ℤ) : ℚ) := by
        refine mul_le_mul_of_nonneg_right ?_ (le_of_lt hlq)
        exact_mod_cast (by omega :
          totalPagesOf (prePage q ps).length (limitVal q) ≤ pageVal q - 1)
      have h3 := le_trans h1 h2
      exact_mod_cast h3
    have hdrop : (prePage q ps).drop (((pageVal q - 1) * limitVal q).toNat) = [] :=
      List.drop_eq_nil_of_le (by omega)
    constructor
    · show paginate (prePage q ps) (pageVal q) (limitVal q) = []
      unfold paginate
      have hs0 : 0 ≤ (pageVal q - 1) * limitVal q := mul_nonneg (by omega) (by omega)
      have he0 : 0 ≤ pageVal q * limitVal q := mul_nonneg (by omega) (by omega)
      rw [jsSlice_of_nonneg _ _ _ hs0 he0, hdrop]
      simp
    · show decide (pageVal q < totalPagesOf (prePage q ps).length (limitVal q)) = false
      exact decide_eq_false (by omega)

/-- C3 witness: the amended slice law at `page=2, limit=2` on the seeded
collection, and the beyond-last-page behaviour at `page=9, limit=1`
(totalPages is 5): empty slice, `hasNextPage = false`. -/
theorem c3_witness :
    (1 : ℤ) ≤ pageVal { page := some "2", limit := some "2" } ∧
    (listProducts sampleProducts { page := some "2", limit := some "2" }).data
      = ((prePage { page := some "2", limit := some "2" } sampleProducts).drop 2).take 2 ∧
    (listProducts sampleProducts { page := some "9", limit := some "1" }).data = [] ∧
    (listProducts sampleProducts { page := some "9", limit := some "1" }).pagination.hasNextPage
      = false := by
  have htp : (listProducts sampleProducts
      { page := some "9", limit := some "1" }).pagination.totalPages
      < pageVal { page := some "9", limit := some "1" } := by
    show totalPagesOf (prePage { page := some "9", limit := some "1" } sampleProducts).length
      (limitVal { page := some "9", limit := some "1" }) < _
    rw [show (prePage { page := some "9", limit := some "1" } sampleProducts).length = 5
          from by decide,
        show limitVal { page := some "9", limit := some "1" } = 1 from by decide]
    unfold totalPagesOf
    rw [show ((5 : ℕ) : ℚ) / ((1 : ℤ) : ℚ) = ((5 : ℤ) : ℚ) from by norm_num,
        Int.ceil_intCast]
    decide
  have h2 := (c3_pagination_amended sampleProducts
    { page := some "9", limit := some "1" }).2.2.2.2.2 (by decide) htp
  exact ⟨by decide,
    (c3_pagination_amended sampleProducts { page := some "2", limit := some "2" }).2.2.2.2.1
      (by decide) (by decide),
    h2.1, h2.2⟩

/-! ## C10 -/

theorem catCountSum_addCat (m : List (String × CatStat)) (c : String) (pr : ℚ) :
    catCountSum (addCat m c pr) = catCountSum m + 1 := by
  induction m with
  | nil => rfl
  | cons kv rest ih =>
    unfold addCat
    by_cases h : kv.1 = c
    · simp [h, catCountSum]; omega
    · simp only [h, if_false]
      simp [catCountSum] at ih ⊢
      omega

theorem foldl_addCat_count (ps : List Product) :
    ∀ acc : List (String × CatStat),
      catCountSum (ps.foldl (fun m p => addCat m p.category p.price) acc)
        = catCountSum acc + ps.length := by
  induction ps with
  | nil => intro acc; simp
  | cons p ps ih =>
    intro acc
    simp only [List.foldl_cons, List.length_cons]
    rw [ih (addCat acc p.category p.price), catCountSum_addCat]
    omega

theorem filter_stock_split (ps : List Product) :
    (ps.filter (fun p => p.inStock)).length + (ps.filter (fun p => !p.inStock)).length
      = ps.length := by
  induction ps with
  | nil => rfl
  | cons p ps ih =>
    by_cases h : p.inStock <;> simp [List.filter_cons, h] <;> omega


/-! ## C5 -/

theorem paginate_one {α : Type} (ys : List α) (l : ℤ) (hl : 0 ≤ l) :
    paginate ys 1 l = ys.take l.toNat := by
  unfold paginate
  rw [show ((1 : ℤ) - 1) * l = 0 from by ring, show (1 : ℤ) * l = l from by ring,
      jsSlice_of_nonneg ys 0 l le_rfl hl]
  simp

theorem paginate_succ_drop {α : Type} (ys : List α) (l p : ℤ) (hl : 0 < l) (hp : 1 ≤ p) :
    paginate ys (p + 1) l = paginate (ys.drop l.toNat) p l := by
  unfold paginate
  have ha : 0 ≤ (p - 1) * l := mul_nonneg (by omega) (by omega)
  have hb : 0 ≤ p * l := mul_nonneg (by omega) (by omega)
  have hc : 0 ≤ (p + 1 - 1) * l := mul_nonneg (by omega) (by omega)
  have hd : 0 ≤ (p + 1) * l := mul_nonneg (by omega) (by omega)
  have e1 : (p + 1 - 1) * l = (p - 1) * l + l := by ring
  have e2 : (p + 1) * l = p * l + l := by ring
  have e3 : p * l = (p - 1) * l + l := by ring
  rw [jsSlice_of_nonneg ys _ _ hc hd,
      jsSlice_of_nonneg (ys.drop l.toNat) _ _ ha hb,
      List.drop_drop]
  have harg1 : ((p + 1 - 1) * l).toNat = l.toNat + ((p - 1) * l).toNat := by omega
  rw [harg1]
  congr 1
  omega

theorem totalPagesOf_nonneg (n : ℕ) (l : ℤ) (hl : 0 < l) : 0 ≤ totalPagesOf n l := by
  unfold totalPagesOf
  refine Int.ceil_nonneg (div_nonneg (by positivity) ?_)
  exact_mod_cast le_of_lt hl

theorem paginate_flatten {α : Type} (l : ℤ) (hl : 0 < l) :
    ∀ (k : ℕ) (ys : List α), totalPagesOf ys.length l = (k : ℤ) →
      ((List.range k).map (fun (i : ℕ) => paginate ys ((i : ℤ) + 1) l)).flatten = ys := by
  intro k
  induction k with
  | zero =>
    intro ys h
    have hn : ((ys.length : ℚ)) / ((l : ℤ) : ℚ) ≤ ((0 : ℤ) : ℚ) := by
      rw [← Int.ceil_le]
      exact le_of_eq h
    have hlq : (0 : ℚ) < ((l : ℤ) : ℚ) := by exact_mod_cast hl
    have : ((ys.length : ℚ)) ≤ 0 := by
      have := (div_le_iff₀ hlq).mp hn
      simpa using this
    have hz : ys.length = 0 := by exact_mod_cast le_antisymm this (by positivity)
    rw [List.length_eq_zero.mp hz]
    simp
  | succ k ih =>
    intro ys h
    rw [List.range_succ_eq_map, List.map_cons, List.map_map, List.flatten_cons]
    have h0 : paginate ys (((0 : ℕ) : ℤ) + 1) l = ys.take l.toNat := by
      rw [show (((0 : ℕ) : ℤ) + 1) = (1 : ℤ) from by norm_num]
      exact paginate_one ys l (le_of_lt hl)
    have hshift : ((List.range k).map ((fun (i : ℕ) => paginate ys ((i : ℤ) + 1) l) ∘ Nat.succ))
        = (List.range k).map (fun (i : ℕ) => paginate (ys.drop l.toNat) ((i : ℤ) + 1) l) := by
      apply List.map_congr_left
      intro i _
      show paginate ys ((i.succ : ℤ) + 1) l = _
      rw [show ((i.succ : ℤ) + 1) = ((i : ℤ) + 1) + 1 from by push_cast; ring]
      exact paginate_succ_drop ys l ((i : ℤ) + 1) hl (by omega)
    rw [h0, hshift, ih (ys.drop l.toNat) ?_, List.take_append_drop]
    -- remaining: the page count of the dropped list is k
    have hlq : (0 : ℚ) < ((l : ℤ) : ℚ) := by exact_mod_cast hl
    rcases le_or_lt ys.length l.toNat with hle | hgt
    · -- at most one page: k must be 0 and the dropped list is empty
      have hdrop : (ys.drop l.toNat).length = 0 := by
        rw [List.length_drop]; omega
      have hk0 : totalPagesOf ys.length l ≤ 1 := by
        unfold totalPagesOf
        rw [Int.ceil_le, div_le_iff₀ hlq]
        push_cast
        rw [one_mul]
        exact_mod_cast (by omega : ((ys.length : ℤ)) ≤ l)
      have hk : k = 0 := by omega
      rw [hdrop, hk]
      unfold totalPagesOf
      norm_num
    · -- more than one page: the ceiling decreases by exactly one
      have hdrop : (ys.drop l.toNat).length = ys.length - l.toNat := List.length_drop _ _
      rw [hdrop]
      unfold totalPagesOf at h ⊢
      have hcast : ((ys.length - l.toNat : ℕ) : ℚ) = (ys.length : ℚ) - ((l : ℤ) : ℚ) := by
        rw [Nat.cast_sub (le_of_lt hgt)]
        congr 1
        exact_mod_cast Int.toNat_of_nonneg (le_of_lt hl)
      rw [hcast, show ((ys.length : ℚ) - ((l : ℤ) : ℚ)) / ((l : ℤ) : ℚ)
            = (ys.length : ℚ) / ((l : ℤ) : ℚ) - 1 from by field_simp,
          show ((1 : ℚ)) = ((1 : ℤ) : ℚ) from by norm_num, Int.ceil_sub_int, h]
      omega

/-- C5: with no search or filter parameters set (only `sortBy`/`order` free)
and any positive limit, the filter stages pass the whole collection through,
the post-sort sequence is a permutation of the collection, and concatenating
the data slices of pages `1, 2, ..., totalPages` in page order reproduces
the post-sort sequence exactly — every record once, none duplicated, none
omitted. -/
theorem c5_pages_partition_collection (ps : List Product) (sB o : Option String)
    (l : ℤ) (hl : 0 < l) :
    filterStages { sortBy := sB, order := o } ps = ps ∧
    (prePage { sortBy := sB, order := o } ps).Perm ps ∧
    ((List.range (totalPagesOf (prePage { sortBy := sB, order := o } ps).length l).toNat).map
        (fun (i : ℕ) =>
          (listCore ps { sortBy := sB, order := o } ((i : ℤ) + 1) l).data)).flatten
      = prePage { sortBy := sB, order := o } ps := by
  refine ⟨rfl, sortStage_perm _ _, ?_⟩
  have hnn := totalPagesOf_nonneg (prePage { sortBy := sB, order := o } ps).length l hl
  exact paginate_flatten l hl _ (prePage { sortBy := sB, order := o } ps)
    (Int.toNat_of_nonneg hnn).symm

/-- C5 witness: the partition at `sortBy=price, order=desc, limit=2` on the
seeded five-record collection (three pages: 2+2+1 records). -/
theorem c5_witness :
    filterStages { sortBy := some "price", order := some "desc" } sampleProducts
      = sampleProducts ∧
    (prePage { sortBy := some "price", order := some "desc" } sampleProducts).Perm
      sampleProducts ∧
    ((List.range (totalPagesOf
        (prePage { sortBy := some "price", order := some "desc" } sampleProducts).length
        2).toNat).map
        (fun (i : ℕ) =>
          (listCore sampleProducts { sortBy := some "price", order := some "desc" }
            ((i : ℤ) + 1) 2).data)).flatten
      = prePage { sortBy := some "price", order := some "desc" } sampleProducts :=
  c5_pages_partition_collection sampleProducts (some "price") (some "desc") 2 (by decide)

/-! ## C10 -/

/-- A reachable snapshot mixing a price at the top of the 2-ulp binade with
two unit prices in another category (all three bodies pass validation). -/
def largeSpreadProducts : List Product :=
  [ ⟨"1", "Mainframe", "Refurbished mainframe", 10000000000000000, "enterprise", true⟩,
    ⟨"2", "Cable", "Two-metre cable", 1, "accessories", true⟩,
    ⟨"3", "Adapter", "Universal adapter", 1, "accessories", true⟩ ]

/-- C10 counterexample: on `largeSpreadProducts` the overall `totalValue` is
computed as `((0 + 1e16) + 1) + 1`, and each `+ 1` at magnitude `1e16` (ulp
2, tie to even) rounds back to `1e16`; the per-category totals are `1e16`
and `2`, summing to `1e16 + 2`.  So the per-category totals do not sum to
the overall `totalValue`: double addition grouped differently gives
different results, refuting the claimed exact invariant. -/
theorem c10_counterexample :
    (getStats largeSpreadProducts).totalValue = 10000000000000000 ∧
    (getStats largeSpreadProducts).byCategory
      = [("enterprise", ⟨1, 10000000000000000⟩), ("accessories", ⟨2, 2⟩)] ∧
    catValueSum (getStats largeSpreadProducts).byCategory = 10000000000000002 ∧
    catValueSum (getStats largeSpreadProducts).byCategory
      ≠ (getStats largeSpreadProducts).totalValue := by
  have hby : (getStats largeSpreadProducts).byCategory
      = [("enterprise", ⟨1, 10000000000000000⟩), ("accessories", ⟨2, 2⟩)] := by decide
  have hsum : catValueSum (getStats largeSpreadProducts).byCategory
      = 10000000000000002 := by
    rw [hby]
    simp [catValueSum]
    norm_num
  have htv : (getStats largeSpreadProducts).totalValue = 10000000000000000 := by decide
  refine ⟨htv, hby, hsum, ?_⟩
  rw [hsum, htv]
  norm_num

/-- C10 (amended): for every snapshot the counting parts of the stats
payload are exactly consistent — the in-stock count plus the out-of-stock
count equals the total count, and the per-category counts sum to the total
count — and for a non-empty collection `averagePrice` is exactly the
binary64 quotient of the (already rounded) `totalValue` by the total count.
The per-category `totalValue`s do not in general sum to the overall
`totalValue`: both sides are IEEE-754 double sums grouped differently, and
at reachable snapshots they differ. -/
theorem c10_stats_consistency_amended (ps : List Product) :
    (getStats ps).inStock + (getStats ps).outOfStock = (getStats ps).totalProducts ∧
    catCountSum (getStats ps).byCategory = (getStats ps).totalProducts ∧
    (0 < (getStats ps).totalProducts →
      (getStats ps).averagePrice
        = fdiv (getStats ps).totalValue (((getStats ps).totalProducts : ℕ) : ℚ)) := by
  refine ⟨filter_stock_split ps, ?_, ?_⟩
  · show catCountSum (byCategoryOf ps) = ps.length
    unfold byCategoryOf
    rw [foldl_addCat_count ps []]
    simp [catCountSum]
  · intro h
    have h' : ps.length > 0 := h
    show (if ps.length > 0 then _ else _) = _
    rw [if_pos h']
    rfl

/-- C10 witness: the amended consistency at the seeded collection, where the
total is positive. -/
theorem c10_amended_witness :
    0 < (getStats sampleProducts).totalProducts ∧
    (getStats sampleProducts).averagePrice
      = fdiv (getStats sampleProducts).totalValue
          (((getStats sampleProducts).totalProducts : ℕ) : ℚ) ∧
    (getStats sampleProducts).inStock + (getStats sampleProducts).outOfStock
      = (getStats sampleProducts).totalProducts :=
  ⟨by decide, (c10_stats_consistency_amended sampleProducts).2.2 (by decide),
    (c10_stats_consistency_amended sampleProducts).1⟩
